import Mathlib

/-!
Verification of the file-state synchronization and diff-emission engine of the
git-server repository (state_manager.py, workspace_manager.py,
src/core/diff_processor.py, src/core/file_manager.py, src/git_mcp_server.py).

The Python code is shallowly embedded: file contents are lists of bytes,
Python dicts become association lists preserving insertion order, fallible
operations return Option, and an uncaught Python exception is an
`Except.error`. `calculate_file_hash` hashes the raw bytes of a file
(binary mode), while `read_file_content` decodes them as UTF-8 with
`errors='ignore'` and universal-newline translation — both are modelled
bit-for-bit, including a full executable SHA-256.
-/

set_option maxRecDepth 100000

deriving instance DecidableEq for Except

namespace GitServer

/-! ## SHA-256 over byte lists (hashlib.sha256(...).hexdigest()) -/

/-- Word size modulus for 32-bit arithmetic. -/
def M32 : Nat := 4294967296

/-- Addition modulo 2^32. -/
def wadd (a b : Nat) : Nat := (a + b) % M32

/-- Rotate the 32-bit word `x` right by `n` positions, staying below 2^32. -/
def rotr (n x : Nat) : Nat := ((x >>> n) ||| (x <<< (32 - n))) % M32

def smallSigma0 (x : Nat) : Nat := (rotr 7 x ^^^ rotr 18 x) ^^^ (x >>> 3)

def smallSigma1 (x : Nat) : Nat := (rotr 17 x ^^^ rotr 19 x) ^^^ (x >>> 10)

def bigSigma0 (x : Nat) : Nat := (rotr 2 x ^^^ rotr 13 x) ^^^ rotr 22 x

def bigSigma1 (x : Nat) : Nat := (rotr 6 x ^^^ rotr 11 x) ^^^ rotr 25 x

/-- The 64 round constants of FIPS 180-4 (fractional parts of the cube roots
of the first 64 primes), written in decimal. -/
def shaK : List Nat :=
  [1116352408, 1899447441, 3049323471, 3921009573, 961987163, 1508970993,
   2453635748, 2870763221, 3624381080, 310598401, 607225278, 1426881987,
   1925078388, 2162078206, 2614888103, 3248222580, 3835390401, 4022224774,
   264347078, 604807628, 770255983, 1249150122, 1555081692, 1996064986,
   2554220882, 2821834349, 2952996808, 3210313671, 3336571891, 3584528711,
   113926993, 338241895, 666307205, 773529912, 1294757372, 1396182291,
   1695183700, 1986661051, 2177026350, 2456956037, 2730485921, 2820302411,
   3259730800, 3345764771, 3516065817, 3600352804, 4094571909, 275423344,
   430227734, 506948616, 659060556, 883997877, 958139571, 1322822218,
   1537002063, 1747873779, 1955562222, 2024104815, 2227730452, 2361852424,
   2428436474, 2756734187, 3204031479, 3329325298]

/-- The eight initial hash words of FIPS 180-4 (fractional parts of the
square roots of the first 8 primes), written in decimal. -/
def shaH0 : List Nat :=
  [1779033703, 3144134277, 1013904242, 2773480762,
   1359893119, 2600822924, 528734635, 1541459225]

/-- Big-endian 8-byte encoding of a natural number (the message bit length). -/
def be64 (n : Nat) : List Nat :=
  [(n >>> 56) &&& 255, (n >>> 48) &&& 255, (n >>> 40) &&& 255, (n >>> 32) &&& 255,
   (n >>> 24) &&& 255, (n >>> 16) &&& 255, (n >>> 8) &&& 255, n &&& 255]

/-- SHA-256 padding: append 0x80, zero bytes to 56 mod 64, then the bit length. -/
def sha256pad (msg : List Nat) : List Nat :=
  let L := msg.length
  let k := (119 - L % 64) % 64
  msg ++ [0x80] ++ List.replicate k 0 ++ be64 (8 * L)

/-- Group bytes into big-endian 32-bit words. -/
def toWords : List Nat → List Nat
  | a :: b :: c :: d :: rest => ((((a <<< 8) ||| b) <<< 8 ||| c) <<< 8 ||| d) :: toWords rest
  | _ => []

/-- Extend a 16-word block by `n` further schedule words. -/
def scheduleExt (w : List Nat) : Nat → List Nat
  | 0 => w
  | n + 1 =>
    let len := w.length
    let x := wadd (wadd (w.getD (len - 16) 0) (smallSigma0 (w.getD (len - 15) 0)))
                  (wadd (w.getD (len - 7) 0) (smallSigma1 (w.getD (len - 2) 0)))
    scheduleExt (w ++ [x]) n

/-- The eight working registers of the compression function. -/
structure Regs where
  a : Nat
  b : Nat
  c : Nat
  d : Nat
  e : Nat
  f : Nat
  g : Nat
  h : Nat

/-- One SHA-256 compression round. -/
def shaRound (r : Regs) (k w : Nat) : Regs :=
  let ch := (r.e &&& r.f) ^^^ ((r.e ^^^ 0xffffffff) &&& r.g)
  let t1 := wadd (wadd (wadd r.h (bigSigma1 r.e)) (wadd ch k)) w
  let maj := ((r.a &&& r.b) ^^^ (r.a &&& r.c)) ^^^ (r.b &&& r.c)
  let t2 := wadd (bigSigma0 r.a) maj
  ⟨wadd t1 t2, r.a, r.b, r.c, wadd r.d t1, r.e, r.f, r.g⟩

/-- Compress one 16-word block into the running hash state. -/
def compressBlock (hs ws : List Nat) : List Nat :=
  let w64 := scheduleExt ws 48
  let r0 : Regs := ⟨hs.getD 0 0, hs.getD 1 0, hs.getD 2 0, hs.getD 3 0,
                    hs.getD 4 0, hs.getD 5 0, hs.getD 6 0, hs.getD 7 0⟩
  let rf := (List.zip shaK w64).foldl (fun r kw => shaRound r kw.1 kw.2) r0
  [wadd (hs.getD 0 0) rf.a, wadd (hs.getD 1 0) rf.b, wadd (hs.getD 2 0) rf.c,
   wadd (hs.getD 3 0) rf.d, wadd (hs.getD 4 0) rf.e, wadd (hs.getD 5 0) rf.f,
   wadd (hs.getD 6 0) rf.g, wadd (hs.getD 7 0) rf.h]

/-- Process `n` consecutive 64-byte blocks of the padded message. -/
def processBlocks : Nat → List Nat → List Nat → List Nat
  | 0, hs, _ => hs
  | n + 1, hs, msg => processBlocks n (compressBlock hs (toWords (msg.take 64))) (msg.drop 64)

/-- The SHA-256 digest of a byte list, as a 256-bit natural number. -/
def sha256nat (msg : List Nat) : Nat :=
  let padded := sha256pad msg
  let hs := processBlocks (padded.length / 64) shaH0 padded
  hs.foldl (fun acc x => acc * M32 + x) 0

/-- Lower-case hex digit for a value below 16. -/
def hexChar (n : Nat) : Char :=
  if n < 10 then Char.ofNat (48 + n) else Char.ofNat (87 + n)

/-- Fixed-width big-endian hex rendering with `k` digits. -/
def toHexFixed : Nat → Nat → List Char
  | 0, _ => []
  | k + 1, n => toHexFixed k (n / 16) ++ [hexChar (n % 16)]

/-- hashlib.sha256(bytes).hexdigest(): the 64-character lower-case hex digest. -/
def sha256hex (msg : List Nat) : String := String.mk (toHexFixed 64 (sha256nat msg))

/-! ## Python text-mode file reading

`open(path, 'r', encoding='utf-8', errors='ignore').read()` decodes the raw
bytes as UTF-8, dropping undecodable subparts, and then applies universal
newline translation (CRLF and lone CR both become LF).  `str.encode()` is the
inverse UTF-8 encoding. -/

/-- UTF-8 continuation byte test (0x80..0xBF). -/
def isCont (c : Nat) : Bool := 0x80 ≤ c && c ≤ 0xBF

/-- Valid second byte of a 3-byte sequence headed by `b` (excludes overlong
forms and surrogates, as CPython's decoder does). -/
def cont3ok (b c : Nat) : Bool :=
  if b = 0xE0 then 0xA0 ≤ c && c ≤ 0xBF
  else if b = 0xED then 0x80 ≤ c && c ≤ 0x9F
  else isCont c

/-- Valid second byte of a 4-byte sequence headed by `b` (excludes overlong
forms and code points above U+10FFFF). -/
def cont4ok (b c : Nat) : Bool :=
  if b = 0xF0 then 0x90 ≤ c && c ≤ 0xBF
  else if b = 0xF4 then 0x80 ≤ c && c ≤ 0x8F
  else isCont c

/-- UTF-8 decoding with errors='ignore', fuel-indexed so that the recursion is
structural (every step consumes at least one byte, so fuel = input length is
always enough). Invalid subparts are dropped and decoding resumes at the next
byte that is not part of the invalid subpart. -/
def utf8DecodeFuel : Nat → List Nat → List Char
  | 0, _ => []
  | _, [] => []
  | fuel + 1, b :: rest =>
    if b < 0x80 then Char.ofNat b :: utf8DecodeFuel fuel rest
    else if 0xC2 ≤ b && b ≤ 0xDF then
      match rest with
      | [] => []
      | c :: rest2 =>
        if isCont c then Char.ofNat ((b - 0xC0) * 0x40 + (c - 0x80)) :: utf8DecodeFuel fuel rest2
        else utf8DecodeFuel fuel (c :: rest2)
    else if 0xE0 ≤ b && b ≤ 0xEF then
      match rest with
      | [] => []
      | [c] => if cont3ok b c then [] else utf8DecodeFuel fuel [c]
      | c :: d :: rest3 =>
        if cont3ok b c then
          if isCont d then
            Char.ofNat ((b - 0xE0) * 0x1000 + (c - 0x80) * 0x40 + (d - 0x80)) ::
              utf8DecodeFuel fuel rest3
          else utf8DecodeFuel fuel (d :: rest3)
        else utf8DecodeFuel fuel (c :: d :: rest3)
    else if 0xF0 ≤ b && b ≤ 0xF4 then
      match rest with
      | [] => []
      | [c] => if cont4ok b c then [] else utf8DecodeFuel fuel [c]
      | [c, d] => if cont4ok b c then (if isCont d then [] else utf8DecodeFuel fuel [d])
                  else utf8DecodeFuel fuel [c, d]
      | c :: d :: e :: rest4 =>
        if cont4ok b c then
          if isCont d then
            if isCont e then
              Char.ofNat ((b - 0xF0) * 0x40000 + (c - 0x80) * 0x1000 +
                  (d - 0x80) * 0x40 + (e - 0x80)) :: utf8DecodeFuel fuel rest4
            else utf8DecodeFuel fuel (e :: rest4)
          else utf8DecodeFuel fuel (d :: e :: rest4)
        else utf8DecodeFuel fuel (c :: d :: e :: rest4)
    else utf8DecodeFuel fuel rest

/-- UTF-8 decoding with errors='ignore'. -/
def utf8DecodeIgnore (bytes : List Nat) : List Char := utf8DecodeFuel bytes.length bytes

/-- Universal newline translation: CRLF and lone CR both become LF. -/
def translateNewlines : List Char → List Char
  | [] => []
  | '\r' :: '\n' :: rest => '\n' :: translateNewlines rest
  | '\r' :: rest => '\n' :: translateNewlines rest
  | c :: rest => c :: translateNewlines rest

/-- Python text-mode read of raw bytes: UTF-8 errors='ignore' decode followed
by universal newline translation. -/
def decodeText (bytes : List Nat) : String :=
  String.mk (translateNewlines (utf8DecodeIgnore bytes))

/-- UTF-8 encoding of one code point. -/
def utf8EncodeChar (c : Char) : List Nat :=
  let n := c.toNat
  if n < 0x80 then [n]
  else if n < 0x800 then [0xC0 + n / 0x40, 0x80 + n % 0x40]
  else if n < 0x10000 then
    [0xE0 + n / 0x1000, 0x80 + (n / 0x40) % 0x40, 0x80 + n % 0x40]
  else
    [0xF0 + n / 0x40000, 0x80 + (n / 0x1000) % 0x40, 0x80 + (n / 0x40) % 0x40, 0x80 + n % 0x40]

/-- str.encode('utf-8') of a Lean string. -/
def utf8Encode (s : String) : List Nat := (s.data.map utf8EncodeChar).flatten

/-- The fingerprint of a content *string* (hashlib.sha256(content.encode())):
what the spec asserts the stored hash always equals. -/
def contentFingerprint (content : String) : String := sha256hex (utf8Encode content)

/-- Python string slicing `s[:n]` (by code points). -/
def pySlice (s : String) (n : Nat) : String := String.mk (s.data.take n)

/-! ## Python dicts as insertion-ordered association lists -/

/-- dict lookup `d.get(k)`. -/
def alookup {α : Type} (k : String) : List (String × α) → Option α
  | [] => none
  | (k2, v) :: rest => if k = k2 then some v else alookup k rest

/-- dict update `d[k] = v`: overwrites in place, appends when absent. -/
def upsert {α : Type} (k : String) (v : α) : List (String × α) → List (String × α)
  | [] => [(k, v)]
  | (k2, v2) :: rest => if k = k2 then (k, v) :: rest else (k2, v2) :: upsert k v rest

/-! ## state_manager.py: StateManager -/

/-- A per-file record as written by `StateManager.update_file_state`
(state_manager.py lines 102-106). -/
structure FileRecord where
  hash : String
  content : String
  size : Nat
deriving DecidableEq

/-- A workspace entry as created by `StateManager.create_workspace`
(state_manager.py lines 128-133): description, member file list,
creation time, and the per-file state mapping. -/
structure Workspace where
  description : String
  files : List String
  created_at : Nat
  state : List (String × FileRecord)
deriving DecidableEq

/-- The durable stores owned by one StateManager: the main-scope state file
(absent = `none`; `load_state` then yields an empty mapping) and the
workspaces file. -/
structure SMState where
  main : Option (List (String × FileRecord))
  workspaces : List (String × Workspace)
deriving DecidableEq

/-- `StateManager.load_state`: a missing or corrupt state file reads as `{}`. -/
def load_state (sm : SMState) : List (String × FileRecord) := sm.main.getD []

/-- `StateManager.get_file_state(file_path, workspace_name)`: the stored record
for one path, or nothing when untracked (Python returns `{}`). -/
def get_file_state (sm : SMState) (file_path : String) (workspace_name : Option String) :
    Option FileRecord :=
  match workspace_name with
  | some name => (alookup name sm.workspaces).bind (fun ws => alookup file_path ws.state)
  | none => alookup file_path (load_state sm)

/-- `StateManager.update_file_state(file_path, file_hash, content, workspace_name)`:
stores `{hash, content, size=len(content)}` under the path.  With a workspace
name that is not a key of the workspaces mapping the body's `if` guard fails
and nothing at all happens. -/
def update_file_state (sm : SMState) (file_path file_hash content : String)
    (workspace_name : Option String) : SMState :=
  let file_state : FileRecord := ⟨file_hash, content, content.length⟩
  match workspace_name with
  | some name =>
    match alookup name sm.workspaces with
    | some ws =>
      { sm with workspaces :=
          upsert name { ws with state := upsert file_path file_state ws.state } sm.workspaces }
    | none => sm
  | none => { sm with main := some (upsert file_path file_state (load_state sm)) }

/-- `StateManager.reset_state(workspace_name)`: with a name, clears only that
workspace's `state` mapping (False when the name is unknown); with no name,
removes the main state file and reports success. -/
def reset_state (sm : SMState) (workspace_name : Option String) : SMState × Bool :=
  match workspace_name with
  | some name =>
    match alookup name sm.workspaces with
    | some ws =>
      ({ sm with workspaces := upsert name { ws with state := [] } sm.workspaces }, true)
    | none => (sm, false)
  | none => ({ sm with main := none }, true)

/-- `StateManager.get_workspace(name)`. -/
def get_workspace (sm : SMState) (name : String) : Option Workspace :=
  alookup name sm.workspaces

/-- `StateManager.list_workspaces()` reduced to the names (the only part the
callers below consume). -/
def list_workspace_names (sm : SMState) : List String := sm.workspaces.map Prod.fst

/-! ## file_manager.py: FileManager against a modelled file system

The on-disk tree is a mapping from repo-relative path to raw bytes, plus the
ignore-check collaborator (the spec treats its pattern semantics as opaque:
only the boolean is consumed) and the set of paths whose `open` raises. -/

structure FS where
  files : List (String × List Nat)
  ignored : List String
  readFails : List String
deriving DecidableEq

/-- `FileManager.file_exists`: os.path.exists on the joined path. -/
def file_exists (fs : FS) (file_path : String) : Bool := (alookup file_path fs.files).isSome

/-- `FileManager.is_ignored`: the collaborator's boolean verdict. -/
def is_ignored (fs : FS) (file_path : String) : Bool := fs.ignored.contains file_path

/-- `FileManager.read_file_content`: text-mode UTF-8 errors='ignore' read;
any raised exception yields None. -/
def read_file_content (fs : FS) (file_path : String) : Option String :=
  if fs.readFails.contains file_path then none
  else (alookup file_path fs.files).map decodeText

/-- `FileManager.calculate_file_hash`: SHA-256 hexdigest of the raw bytes
(binary-mode read); any raised exception yields None. -/
def calculate_file_hash (fs : FS) (file_path : String) : Option String :=
  if fs.readFails.contains file_path then none
  else (alookup file_path fs.files).map sha256hex

/-! ## diff_processor.py: UpdateMode, DiffProcessor -/

inductive UpdateMode where
  | diffs_only
  | full_content
  | changed_files_only
  | smart
deriving DecidableEq

/-- `UpdateMode(update_mode)` wrapped in try/except ValueError: unrecognized
strings fall back to SMART (with only a log warning). -/
def parseUpdateMode (s : String) : UpdateMode :=
  if s = "diffs_only" then .diffs_only
  else if s = "full_content" then .full_content
  else if s = "changed_files_only" then .changed_files_only
  else if s = "smart" then .smart
  else .smart

/-- `DiffProcessor.get_mode_description`. -/
def get_mode_description : UpdateMode → String
  | .diffs_only => "Shows unified diffs for changed files, full content for new files"
  | .full_content => "Shows complete content of all files"
  | .changed_files_only => "Shows only files that have changed"
  | .smart => "Shows diffs for modified files, full content for new files"

/-- Prefix every line of a block with a marker (used only inside
`generate_diff` below). -/
def markLines (marker : String) (s : String) : String := marker ++ s ++ "\n"

/-- `DiffProcessor.generate_diff`: difflib.unified_diff over
splitlines(keepends=True) with n=3 context and a/<path>, b/<path> labels.
Modelled at the precision every caller in this repository consumes: the
result is the empty string exactly when the two contents are equal
(difflib emits no groups then), and otherwise a non-empty unified-diff-shaped
block carrying both labels; the line-matching heuristic inside
difflib.SequenceMatcher is abstracted to full removal plus insertion. -/
def generate_diff (old_content new_content file_path : String) : String :=
  if old_content = new_content then ""
  else
    "--- a/" ++ file_path ++ "\n+++ b/" ++ file_path ++ "\n" ++
      markLines "-" old_content ++ markLines "+" new_content

/-- One per-file result dict of `DiffProcessor.process_file_for_mode`:
the four always-present keys, plus the optional payload keys. -/
structure FileResult where
  file : String
  size : Nat
  changed : Bool
  hash : String
  content : Option String := none
  status : Option String := none
  diff : Option String := none
  error : Option String := none
deriving DecidableEq

/-- `DiffProcessor.process_file_for_mode`: the update-mode policy table.
Returns `none` exactly where Python returns None (CHANGED_FILES_ONLY on an
unchanged file). -/
def process_file_for_mode (file_path current_content current_hash old_content old_hash : String)
    (update_mode : UpdateMode) : Option FileResult :=
  let has_changed : Bool := current_hash != old_hash
  let is_new_file : Bool := old_hash == ""
  let base : FileResult :=
    { file := file_path, size := current_content.length, changed := has_changed,
      hash := current_hash }
  match update_mode with
  | .full_content => some { base with content := some current_content, status := some "full_content" }
  | .diffs_only =>
    if has_changed then
      if is_new_file then
        some { base with
          content := some (pySlice current_content 2000 ++
            (if 2000 < current_content.length then "...\n[truncated]" else "")),
          status := some "new_file" }
      else
        let diff := generate_diff old_content current_content file_path
        if diff != "" then some { base with diff := some diff, status := some "modified" }
        else some { base with status := some "no_changes" }
    else some { base with status := some "unchanged" }
  | .changed_files_only =>
    if has_changed then some { base with content := some current_content, status := some "changed" }
    else none
  | .smart =>
    if has_changed then
      if is_new_file then
        some { base with content := some current_content, status := some "new_file" }
      else
        let diff := generate_diff old_content current_content file_path
        if diff != "" then some { base with diff := some diff, status := some "modified" }
        else some { base with status := some "no_changes" }
    else some { base with status := some "unchanged" }

/-! ## diff_processor.py: process_files_batch

The batch entries handed over by the orchestrators are Python dicts of two
shapes: `{'file': .., 'error': ..}` for files that failed a check, and
`{'path', 'current_content', 'current_hash', 'old_content', 'old_hash'}` for
successfully read files.  They are modelled as one record of optional keys;
an absent key accessed with `d[k]` raises KeyError, which (uncaught in
process_files_batch) aborts the call — `Except.error`. -/

structure FileInfo where
  path : Option String := none
  file : Option String := none
  error : Option String := none
  current_content : Option String := none
  current_hash : Option String := none
  old_content : Option String := none
  old_hash : Option String := none
deriving DecidableEq

/-- The `summary` sub-dict of a batch result. -/
structure Summary where
  total_processed : Nat
  changed_files : Nat
  mode_description : String
deriving DecidableEq

/-- The structured result of `DiffProcessor.process_files_batch`. -/
structure BatchResult where
  files : List FileResult
  update_mode : String
  summary : Summary
deriving DecidableEq

/-- One iteration of the process_files_batch loop body (lines 110-120):
subscript accesses `file_info['path']`, `['current_content']`,
`['current_hash']` raise KeyError when the key is absent; `old_content` and
`old_hash` use `.get(key, '')`. -/
def batchStep (mode : UpdateMode) (fi : FileInfo) : Except String (Option FileResult) :=
  match fi.path with
  | none => .error "KeyError: path"
  | some file_path =>
    match fi.current_content with
    | none => .error "KeyError: current_content"
    | some current_content =>
      match fi.current_hash with
      | none => .error "KeyError: current_hash"
      | some current_hash =>
        .ok (process_file_for_mode file_path current_content current_hash
          (fi.old_content.getD "") (fi.old_hash.getD "") mode)

/-- The process_files_batch loop: collects non-None per-file results in order
and counts those flagged changed; the first raised KeyError propagates. -/
def batchLoop (mode : UpdateMode) : List FileInfo → Except String (List FileResult × Nat)
  | [] => .ok ([], 0)
  | fi :: rest =>
    match batchStep mode fi with
    | .error e => .error e
    | .ok none => batchLoop mode rest
    | .ok (some r) =>
      match batchLoop mode rest with
      | .error e => .error e
      | .ok (l, n) => .ok (r :: l, n + (if r.changed then 1 else 0))

/-- `DiffProcessor.process_files_batch(file_data, update_mode)`. -/
def process_files_batch (file_data : List FileInfo) (update_mode : String) :
    Except String BatchResult :=
  let mode := parseUpdateMode update_mode
  match batchLoop mode file_data with
  | .error e => .error e
  | .ok (results, changes_count) =>
    .ok { files := results, update_mode := update_mode,
          summary := { total_processed := results.length, changed_files := changes_count,
                       mode_description := get_mode_description mode } }

/-! ## The per-path collection loops of the two orchestrators -/

/-- An error entry `{'file': path, 'error': msg}`. -/
def errEntry (file_path msg : String) : FileInfo :=
  { file := some file_path, error := some msg }

/-- A successful entry with the five data keys. -/
def mkEntry (file_path content fhash old_content old_hash : String) : FileInfo :=
  { path := some file_path, current_content := some content, current_hash := some fhash,
    old_content := some old_content, old_hash := some old_hash }

/-- The per-path loop of `WorkspaceManager._process_workspace_files`
(workspace_manager.py lines 125-164): existence check, ignore check, content
read, hash, prior state from the workspace scope.  No state is written. -/
def buildFileData (sm : SMState) (fs : FS) (workspace_name : Option String) :
    List String → List FileInfo
  | [] => []
  | p :: rest =>
    if ¬ file_exists fs p then
      errEntry p "File not found" :: buildFileData sm fs workspace_name rest
    else if is_ignored fs p then
      errEntry p "File is ignored" :: buildFileData sm fs workspace_name rest
    else
      match read_file_content fs p with
      | none => errEntry p "Failed to read file" :: buildFileData sm fs workspace_name rest
      | some content =>
        let fhash := (calculate_file_hash fs p).getD ""
        let stored := get_file_state sm p workspace_name
        mkEntry p content fhash ((stored.map FileRecord.content).getD "")
            ((stored.map FileRecord.hash).getD "") ::
          buildFileData sm fs workspace_name rest

/-- The result dict of `_process_workspace_files`: the batch result augmented
with the workspace context keys. -/
structure WsResult where
  batch : BatchResult
  workspace_name : String
  workspace_description : String
deriving DecidableEq

/-- `WorkspaceManager._process_workspace_files(workspace_name, file_paths,
update_mode)`.  Reads are performed against the workspace scope; nothing is
committed back to the store. -/
def process_workspace_files (sm : SMState) (fs : FS) (name : String)
    (file_paths : List String) (update_mode : String) : Except String WsResult :=
  let file_data := buildFileData sm fs (some name) file_paths
  match process_files_batch file_data update_mode with
  | .error e => .error e
  | .ok b =>
    .ok { batch := b, workspace_name := name,
          workspace_description := ((get_workspace sm name).map Workspace.description).getD "" }

/-- The observable outcome of a workspace call: a structured `{"error": ...}`
dict for an unknown name, an uncaught exception, or the processed result. -/
inductive WsOutcome where
  | notFound (errMsg : String) (available : List String)
  | exn (msg : String)
  | ok (r : WsResult)
deriving DecidableEq

/-- `WorkspaceManager.load_workspace(name, update_mode)` together with the
store it leaves behind.  The Python method performs no state writes, which the
explicit state-passing makes visible: the returned store is the input store on
every path through the source. -/
def load_workspace (sm : SMState) (fs : FS) (name : String) (update_mode : String) :
    WsOutcome × SMState :=
  match get_workspace sm name with
  | none =>
    (.notFound ("Workspace '" ++ name ++ "' not found") (list_workspace_names sm), sm)
  | some ws =>
    match process_workspace_files sm fs name ws.files update_mode with
    | .error e => (.exn e, sm)
    | .ok r => (.ok r, sm)

/-- `WorkspaceManager.update_workspace(name, update_mode)`: identical
processing, then for every result entry without an 'error' key and with
changed=True, the file is re-read and — only when the fresh content is truthy
(Python `if content:`, so None and the empty string are both skipped) —
committed into the workspace scope. -/
def update_workspace (sm : SMState) (fs : FS) (name : String) (update_mode : String) :
    WsOutcome × SMState :=
  match get_workspace sm name with
  | none => (.notFound ("Workspace '" ++ name ++ "' not found") [], sm)
  | some ws =>
    match process_workspace_files sm fs name ws.files update_mode with
    | .error e => (.exn e, sm)
    | .ok r =>
      let sm2 := r.batch.files.foldl (fun acc fi =>
        if fi.error.isNone && fi.changed then
          match read_file_content fs fi.file with
          | some content =>
            if content != "" then update_file_state acc fi.file fi.hash content (some name)
            else acc
          | none => acc
        else acc) sm
      (.ok r, sm2)

/-- The per-path loop of `MultiRepoGitMCPServer._get_files_with_mode`
(git_mcp_server.py lines 383-411): same checks as the workspace loop, but
against the main scope, and `update_file_state` is called for every
successfully read file right after its entry is appended — before the batch
is processed.  `calculate_file_hash` cannot return None on the branch where
it is used (the same file was just read successfully), so the `getD`
default is unreachable. -/
def buildMain (fs : FS) : SMState → List String → List FileInfo × SMState
  | sm, [] => ([], sm)
  | sm, p :: rest =>
    if ¬ file_exists fs p then
      let step := buildMain fs sm rest
      (errEntry p "File not found" :: step.1, step.2)
    else if is_ignored fs p then
      let step := buildMain fs sm rest
      (errEntry p "File is ignored" :: step.1, step.2)
    else
      match read_file_content fs p with
      | none =>
        let step := buildMain fs sm rest
        (errEntry p "Failed to read file" :: step.1, step.2)
      | some content =>
        let fhash := (calculate_file_hash fs p).getD ""
        let stored := get_file_state sm p none
        let fi := mkEntry p content fhash ((stored.map FileRecord.content).getD "")
          ((stored.map FileRecord.hash).getD "")
        let sm1 := update_file_state sm p fhash content none
        let step := buildMain fs sm1 rest
        (fi :: step.1, step.2)

/-- The result of `_get_files_with_mode`: the batch result plus the
'repository' key. -/
structure GfResult where
  batch : BatchResult
  repository : String
deriving DecidableEq

/-- `MultiRepoGitMCPServer._get_files_with_mode(file_paths, update_mode)`
together with the store it leaves behind.  Note the per-file state commits
happen during collection, so they survive even when the batch call then
raises. -/
def get_files_with_mode (sm : SMState) (fs : FS) (file_paths : List String)
    (update_mode : String) (repo : String) : Except String GfResult × SMState :=
  let collected := buildMain fs sm file_paths
  match process_files_batch collected.1 update_mode with
  | .error e => (.error e, collected.2)
  | .ok b => (.ok { batch := b, repository := repo }, collected.2)

/-! ## Derived notions used by the statements -/

/-- All three per-path checks of the orchestrators pass for this path. -/
def succeeds (fs : FS) (p : String) : Prop :=
  file_exists fs p = true ∧ is_ignored fs p = false ∧ fs.readFails.contains p = false

instance (fs : FS) (p : String) : Decidable (succeeds fs p) := by
  unfold succeeds; infer_instance

/-- The FileRecord the main-scope loop commits for a successfully read path:
hash of the raw bytes, text-decoded content. -/
def recOf (fs : FS) (p : String) : FileRecord :=
  match alookup p fs.files with
  | some bytes => ⟨sha256hex bytes, decodeText bytes, (decodeText bytes).length⟩
  | none => ⟨"", "", 0⟩

/-- The per-file result list of a workspace call outcome (empty on error). -/
def filesOf : WsOutcome → List FileResult
  | .ok r => r.batch.files
  | _ => []

/-! ## Concrete fixtures for the closed theorems -/

/-- A store with no main state and no workspaces. -/
def emptySM : SMState := ⟨none, []⟩

/-- A workspace "w" tracking file "a" with a stale stored record. -/
def wsDemoStore : SMState :=
  ⟨none, [("w", ⟨"demo", ["a"], 0, [("a", ⟨"oldh", "old", 3⟩)]⟩)]⟩

/-- File "a" now holds the bytes of "new\n". -/
def wsDemoFS : FS := ⟨[("a", [110, 101, 119, 10])], [], []⟩

/-- A workspace whose member list names a file that is missing on disk next to
one that is readable. -/
def crashStore : SMState := ⟨none, [("w", ⟨"", ["gone.txt", "a.txt"], 0, []⟩)]⟩

/-- Only "a.txt" exists (bytes of "hi"). -/
def crashFS : FS := ⟨[("a.txt", [104, 105])], [], []⟩

/-- A workspace "w" tracking "e.txt" whose stored record predates the file
becoming empty. -/
def emptyFileStore : SMState :=
  ⟨none, [("w", ⟨"", ["e.txt"], 0, [("e.txt", ⟨"oldh", "x", 1⟩)]⟩)]⟩

/-- File "e.txt" is now empty on disk. -/
def emptyFileFS : FS := ⟨[("e.txt", [])], [], []⟩

/-- A file whose raw bytes contain a CRLF line ending. -/
def crlfFS : FS := ⟨[("f", [97, 13, 10, 98])], [], []⟩

/-- A file with plain LF-only ASCII bytes. -/
def lfFS : FS := ⟨[("g", [97, 10, 98])], [], []⟩

/-- A one-file tree used for the idempotence witness. -/
def idemFS : FS := ⟨[("a", [104, 105])], [], []⟩

/-! ## Sanity theorems for the byte-level foundations -/

/-- FIPS 180-4 test vector: the digest of the empty message. -/
theorem sha256hex_empty :
    sha256hex [] = "e3b0c44298fc1c149afbf4c8996fb92427ae41e4649b934ca495991b7852b855" := by
  decide

/-- FIPS 180-4 test vector: the digest of "abc". -/
theorem sha256hex_abc :
    sha256hex [97, 98, 99] =
      "ba7816bf8f01cfea414140de5dae2223b00361a396177a9cb410ff61f20015ad" := by
  decide

/-- Decoding sanity check: CRLF is translated, a stray 0xFF byte is dropped. -/
theorem decodeText_examples :
    decodeText [97, 13, 10, 98] = "a\nb" ∧ decodeText [0xFF, 97] = "a" ∧
      decodeText [97, 10, 98] = "a\nb" := by
  decide

/-! ## Association-list lemmas -/

theorem alookup_upsert_self {α : Type} (k : String) (v : α) (l : List (String × α)) :
    alookup k (upsert k v l) = some v := by
  induction l with
  | nil => simp [upsert, alookup]
  | cons kv rest ih =>
    obtain ⟨k2, v2⟩ := kv
    by_cases hk : k = k2
    · simp [upsert, hk, alookup]
    · simp [upsert, hk, alookup, ih]

theorem alookup_upsert_ne {α : Type} (kl kq : String) (v : α) (l : List (String × α))
    (h : kl ≠ kq) : alookup kl (upsert kq v l) = alookup kl l := by
  induction l with
  | nil => simp [upsert, alookup, h]
  | cons kv rest ih =>
    obtain ⟨k2, v2⟩ := kv
    by_cases hk : kq = k2
    · subst hk
      simp [upsert, alookup, h]
    · by_cases hk2 : kl = k2
      · simp [upsert, alookup, hk, hk2]
      · simp [upsert, alookup, hk, hk2, ih]

/-! ## Frame lemmas for update_file_state on the main scope -/

theorem get_update_main_self (sm : SMState) (p fh c : String) :
    get_file_state (update_file_state sm p fh c none) p none = some ⟨fh, c, c.length⟩ := by
  simp [get_file_state, update_file_state, load_state, alookup_upsert_self]

theorem get_update_main_ne (sm : SMState) (p q fh c : String) (h : q ≠ p) :
    get_file_state (update_file_state sm p fh c none) q none = get_file_state sm q none := by
  simp [get_file_state, update_file_state, load_state, alookup_upsert_ne _ _ _ _ h]

/-! ## Claim theorems -/

/-- C5: whenever old_hash equals current_hash, SMART and DIFFS_ONLY emit a
result entry with status "unchanged" and no content or diff payload, and
CHANGED_FILES_ONLY omits the file entirely (process_file_for_mode returns
None, which process_files_batch then drops). -/
theorem c5_unchanged_no_payload (p c oc fh : String) :
    process_file_for_mode p c fh oc fh UpdateMode.smart =
      some { file := p, size := c.length, changed := false, hash := fh,
             content := none, status := some "unchanged", diff := none, error := none }
  ∧ process_file_for_mode p c fh oc fh UpdateMode.diffs_only =
      some { file := p, size := c.length, changed := false, hash := fh,
             content := none, status := some "unchanged", diff := none, error := none }
  ∧ process_file_for_mode p c fh oc fh UpdateMode.changed_files_only = none := by
  refine ⟨?_, ?_, ?_⟩ <;> simp [process_file_for_mode]

/-- C6: for a previously-untracked file (old_hash empty) that changed,
DIFFS_ONLY emits the first 2000 code points plus the truncation marker
exactly when the content is longer (for length ≤ 2000 the payload is the
content verbatim with no marker), with status "new_file"; SMART emits the
full content with status "new_file". -/
theorem c6_new_file_truncation (p c oc fh : String) (hne : fh ≠ "") :
    process_file_for_mode p c fh oc "" UpdateMode.diffs_only =
      some { file := p, size := c.length, changed := true, hash := fh,
             content := some (pySlice c 2000 ++
               (if 2000 < c.length then "...\n[truncated]" else "")),
             status := some "new_file", diff := none, error := none }
  ∧ (c.length ≤ 2000 →
      pySlice c 2000 ++ (if 2000 < c.length then "...\n[truncated]" else "") = c)
  ∧ process_file_for_mode p c fh oc "" UpdateMode.smart =
      some { file := p, size := c.length, changed := true, hash := fh,
             content := some c, status := some "new_file", diff := none, error := none } := by
  refine ⟨?_, ?_, ?_⟩
  · simp [process_file_for_mode, hne]
  · intro hle
    have hnot : ¬ 2000 < c.length := by omega
    simp only [hnot, if_false, pySlice]
    obtain ⟨data⟩ := c
    have hlen : data.length ≤ 2000 := hle
    simp [List.take_of_length_le hlen]
  · simp [process_file_for_mode, hne]

/-- C6 witness: the hypotheses hold at a concrete previously-untracked file. -/
theorem c6_new_file_truncation_witness :
    ("h1" : String) ≠ ""
  ∧ (process_file_for_mode "f" "ab" "h1" "" "" UpdateMode.diffs_only =
      some { file := "f", size := ("ab" : String).length, changed := true, hash := "h1",
             content := some (pySlice "ab" 2000 ++
               (if 2000 < ("ab" : String).length then "...\n[truncated]" else "")),
             status := some "new_file", diff := none, error := none }
    ∧ (("ab" : String).length ≤ 2000 →
        pySlice "ab" 2000 ++ (if 2000 < ("ab" : String).length then "...\n[truncated]" else "") = "ab")
    ∧ process_file_for_mode "f" "ab" "h1" "" "" UpdateMode.smart =
      some { file := "f", size := ("ab" : String).length, changed := true, hash := "h1",
             content := some "ab", status := some "new_file", diff := none, error := none }) :=
  ⟨by decide, c6_new_file_truncation "f" "ab" "" "h1" (by decide)⟩

/-- C10: update_file_state with a workspace name that is not a key of the
workspaces mapping is a silent no-op: the returned store is the input store
unchanged (Python's method returns None and signals nothing). -/
theorem c10_unknown_workspace_noop (sm : SMState) (p fh c wname : String)
    (hw : alookup wname sm.workspaces = none) :
    update_file_state sm p fh c (some wname) = sm := by
  simp [update_file_state, hw]

/-- C10 witness: a concrete store with no workspace named "ghost". -/
theorem c10_unknown_workspace_noop_witness :
    alookup "ghost" emptySM.workspaces = none
  ∧ update_file_state emptySM "a" "h" "x" (some "ghost") = emptySM :=
  ⟨rfl, c10_unknown_workspace_noop emptySM "a" "h" "x" "ghost" rfl⟩

/-- C8: reset_state with an unknown workspace name returns failure leaving the
store untouched; with an existing workspace it clears only that workspace's
records, preserving its description, member file list, and creation time, the
other workspaces, and the main scope; with no name it deletes the main
scope's store and returns success. -/
theorem c8_reset_state_contract (sm : SMState) (name : String) :
    (alookup name sm.workspaces = none → reset_state sm (some name) = (sm, false))
  ∧ (∀ ws, alookup name sm.workspaces = some ws →
      reset_state sm (some name) =
        ({ sm with workspaces := upsert name { ws with state := [] } sm.workspaces }, true)
      ∧ alookup name ((reset_state sm (some name)).1.workspaces) =
          some { description := ws.description, files := ws.files,
                 created_at := ws.created_at, state := [] }
      ∧ (reset_state sm (some name)).1.main = sm.main
      ∧ (∀ other, other ≠ name →
          alookup other ((reset_state sm (some name)).1.workspaces) =
            alookup other sm.workspaces))
  ∧ reset_state sm none = ({ sm with main := none }, true) := by
  refine ⟨?_, ?_, rfl⟩
  · intro h
    simp [reset_state, h]
  · intro ws h
    refine ⟨by simp [reset_state, h], ?_, ?_, ?_⟩
    · simp [reset_state, h, alookup_upsert_self]
    · simp [reset_state, h]
    · intro other hother
      simp [reset_state, h, alookup_upsert_ne _ _ _ _ hother]

/-- C8 witness: the three branches at a concrete store holding one workspace
with a non-empty record map, description "demo", member list ["a"]. -/
theorem c8_reset_state_contract_witness :
    reset_state wsDemoStore (some "missing") = (wsDemoStore, false)
  ∧ alookup "w" ((reset_state wsDemoStore (some "w")).1.workspaces) =
      some ⟨"demo", ["a"], 0, []⟩
  ∧ (reset_state wsDemoStore (some "w")).1.main = wsDemoStore.main
  ∧ reset_state wsDemoStore none = ({ wsDemoStore with main := none }, true) :=
  ⟨(c8_reset_state_contract wsDemoStore "missing").1 rfl,
   ((c8_reset_state_contract wsDemoStore "w").2.1
      ⟨"demo", ["a"], 0, [("a", ⟨"oldh", "old", 3⟩)]⟩ rfl).2.1,
   ((c8_reset_state_contract wsDemoStore "w").2.1
      ⟨"demo", ["a"], 0, [("a", ⟨"oldh", "old", 3⟩)]⟩ rfl).2.2.1,
   (c8_reset_state_contract wsDemoStore "missing").2.2⟩

/-- C9 (counterexample): the claim asserts the structured result of an
unknown-mode batch carries a diagnostic note indicating the SMART fallback.
It does not: the result of mode "bogus" on an empty batch is byte-for-byte a
SMART result except for echoing the caller's mode string — the
mode_description is SMART's generic description and no field records that a
fallback happened (the diagnostic goes to the log only). -/
theorem c9_no_note_counterexample :
    process_files_batch [] "bogus" =
      Except.ok { files := [], update_mode := "bogus",
                  summary := { total_processed := 0, changed_files := 0,
                               mode_description :=
                                 "Shows diffs for modified files, full content for new files" } }
  ∧ process_files_batch [] "smart" =
      Except.ok { files := [], update_mode := "smart",
                  summary := { total_processed := 0, changed_files := 0,
                               mode_description :=
                                 "Shows diffs for modified files, full content for new files" } } := by
  constructor <;> rfl

/-- C9 (amended): an unrecognized update-mode string never fails: the batch is
processed exactly as SMART would process it, and the returned structure is the
SMART result with the caller's mode string echoed back — in particular it
contains no diagnostic note about the fallback. -/
theorem c9_unknown_mode_falls_back_to_smart (fd : List FileInfo) (m : String)
    (hm : m ∉ (["diffs_only", "full_content", "changed_files_only", "smart"] : List String)) :
    process_files_batch fd m =
      (process_files_batch fd "smart").map (fun b => { b with update_mode := m }) := by
  have hne := hm
  simp only [List.mem_cons, List.mem_singleton, not_or] at hne
  have h1 : m ≠ "diffs_only" := hne.1
  have h2 : m ≠ "full_content" := hne.2.1
  have h3 : m ≠ "changed_files_only" := hne.2.2.1
  have h4 : m ≠ "smart" := hne.2.2.2.1
  have hmode : parseUpdateMode m = UpdateMode.smart := by
    simp [parseUpdateMode, h1, h2, h3, h4]
  have hsmart : parseUpdateMode "smart" = UpdateMode.smart := rfl
  unfold process_files_batch
  rw [hmode, hsmart]
  cases hbl : batchLoop UpdateMode.smart fd with
  | error e => simp [hbl, Except.map]
  | ok res =>
    obtain ⟨results, changes_count⟩ := res
    simp [hbl, Except.map]

/-- C9 witness: the fallback theorem applied at mode "bogus" on a concrete
one-entry batch. -/
theorem c9_unknown_mode_falls_back_to_smart_witness :
    ("bogus" : String) ∉ (["diffs_only", "full_content", "changed_files_only", "smart"] : List String)
  ∧ process_files_batch [mkEntry "a" "x" "h1" "" ""] "bogus" =
      (process_files_batch [mkEntry "a" "x" "h1" "" ""] "smart").map
        (fun b => { b with update_mode := "bogus" }) :=
  ⟨by decide,
   c9_unknown_mode_falls_back_to_smart [mkEntry "a" "x" "h1" "" ""] "bogus" (by decide)⟩

/-- C1: the claim says a file failing its existence check is reported inline
and the rest of the batch is still processed.  In the code the error entries
carry only 'file'/'error' keys while process_files_batch unconditionally
reads file_info['path'], so the first error entry raises KeyError and aborts
the whole call: here a batch of a missing file followed by a perfectly
readable file returns no per-file results at all, and the end-to-end
load_workspace call surfaces the uncaught exception instead of a result. -/
theorem c1_error_entry_aborts_batch :
    process_files_batch [errEntry "gone.txt" "File not found", mkEntry "a.txt" "hi" "h1" "" ""]
        "smart" = Except.error "KeyError: path"
  ∧ (load_workspace crashStore crashFS "w" "smart").1 = WsOutcome.exn "KeyError: path" := by
  constructor <;> decide

/-- C3 (counterexample): load_workspace on workspace "w" whose member "a" was
successfully read (current content "new\n", current hash differing from the
stored "oldh") flags the file changed in the result but commits nothing: the
store it leaves behind is the input store, and the stored record for "a" is
still the stale one. -/
theorem c3_load_workspace_commits_nothing_counterexample :
    (load_workspace wsDemoStore wsDemoFS "w" "smart").2 = wsDemoStore
  ∧ read_file_content wsDemoFS "a" = some "new\n"
  ∧ calculate_file_hash wsDemoFS "a" ≠ some "oldh"
  ∧ (filesOf (load_workspace wsDemoStore wsDemoFS "w" "smart").1).map
      (fun fi => (fi.file, fi.changed)) = [("a", true)]
  ∧ get_file_state ((load_workspace wsDemoStore wsDemoFS "w" "smart").2) "a" (some "w") =
      some ⟨"oldh", "old", 3⟩ := by
  refine ⟨?_, ?_, ?_, ?_, ?_⟩ <;> decide

/-- C3 (amended): load_workspace writes nothing at all — on every path through
the source (unknown workspace, uncaught batch exception, success) the store it
leaves behind is exactly the input store; stored file state is advanced only
by update_workspace and the main-scope get-files operation. -/
theorem c3_load_workspace_is_read_only (sm : SMState) (fs : FS) (name update_mode : String) :
    (load_workspace sm fs name update_mode).2 = sm := by
  unfold load_workspace
  cases get_workspace sm name with
  | none => rfl
  | some ws =>
    have hall : ∀ (x : Except String WsResult),
        (match x with
         | Except.error e => (WsOutcome.exn e, sm)
         | Except.ok r => (WsOutcome.ok r, sm)).2 = sm := by
      intro x
      cases x <;> rfl
    exact hall (process_workspace_files sm fs name ws.files update_mode)

/-- C7: the claim says update_workspace re-persists the stored record of every
member file flagged changed=true.  The persistence guard is Python's
`if content:`, which conflates the empty string with a failed read: for member
"e.txt" whose content changed from "x" to empty, the result flags
changed=true, yet the store is returned untouched and the stale record
survives.  (create_workspace line 52 uses the correct `is not None` check,
showing the truthiness test here is a slip.) -/
theorem c7_changed_empty_file_not_repersisted :
    (update_workspace emptyFileStore emptyFileFS "w" "smart").2 = emptyFileStore
  ∧ read_file_content emptyFileFS "e.txt" = some ""
  ∧ (filesOf (update_workspace emptyFileStore emptyFileFS "w" "smart").1).map
      (fun fi => (fi.file, fi.changed)) = [("e.txt", true)]
  ∧ get_file_state ((update_workspace emptyFileStore emptyFileFS "w" "smart").2) "e.txt"
      (some "w") = some ⟨"oldh", "x", 1⟩ := by
  refine ⟨?_, ?_, ?_, ?_⟩ <;> decide

/-- C2 (counterexample): a tracked file whose raw bytes are "a\r\nb".
`calculate_file_hash` fingerprints the raw bytes, but `read_file_content`
stores the newline-translated decode "a\nb", so the record committed by the
main-scope orchestrator (through update_file_state) carries a hash that is
NOT the fingerprint of its own content string. -/
theorem c2_crlf_counterexample :
    get_file_state ((get_files_with_mode emptySM crlfFS ["f"] "smart" "repo").2) "f" none =
      some ⟨sha256hex [97, 13, 10, 98], "a\nb", 3⟩
  ∧ sha256hex [97, 13, 10, 98] ≠ contentFingerprint "a\nb" := by
  constructor <;> decide

/-- C2 (amended): every record the main-scope orchestrator commits stores the
text-decoded content together with the fingerprint of the file's raw bytes,
written in one call; the stored hash equals the fingerprint of the stored
content string exactly for files whose bytes survive the decode/encode
round-trip (LF-only valid UTF-8 text) — CRLF or non-UTF-8 bytes break the
equality, as the counterexample shows. -/
theorem c2_hash_matches_content_for_roundtrip_bytes (sm : SMState) (fs : FS) (p : String)
    (bytes : List Nat) (update_mode repo : String)
    (hf : alookup p fs.files = some bytes)
    (hi : is_ignored fs p = false)
    (hr : fs.readFails.contains p = false)
    (hrt : utf8Encode (decodeText bytes) = bytes) :
    ∃ r : FileRecord,
      get_file_state ((get_files_with_mode sm fs [p] update_mode repo).2) p none = some r
      ∧ r.content = decodeText bytes
      ∧ r.hash = sha256hex bytes
      ∧ r.hash = contentFingerprint r.content := by
  have hex : file_exists fs p = true := by simp [file_exists, hf]
  have hr2 : p ∉ fs.readFails := by simpa using hr
  have hread : read_file_content fs p = some (decodeText bytes) := by
    simp [read_file_content, hr2, hf]
  have hhash : calculate_file_hash fs p = some (sha256hex bytes) := by
    simp [calculate_file_hash, hr2, hf]
  have h2 : (get_files_with_mode sm fs [p] update_mode repo).2 = (buildMain fs sm [p]).2 := by
    unfold get_files_with_mode
    have hall : ∀ (x : Except String BatchResult),
        (match x with
         | Except.error e => (Except.error e, (buildMain fs sm [p]).2)
         | Except.ok b =>
           (Except.ok ({ batch := b, repository := repo } : GfResult), (buildMain fs sm [p]).2)).2 =
        (buildMain fs sm [p]).2 := by
      intro x
      cases x <;> rfl
    exact hall (process_files_batch (buildMain fs sm [p]).1 update_mode)
  have h3 : (buildMain fs sm [p]).2 =
      update_file_state sm p (sha256hex bytes) (decodeText bytes) none := by
    unfold buildMain
    simp [hex, hread, hhash, hi, buildMain]
  refine ⟨⟨sha256hex bytes, decodeText bytes, (decodeText bytes).length⟩, ?_, rfl, rfl, ?_⟩
  · rw [h2, h3, get_update_main_self]
  · show sha256hex bytes = contentFingerprint (decodeText bytes)
    unfold contentFingerprint
    rw [hrt]

/-- C2 witness: the amended theorem at a concrete LF-only ASCII file. -/
theorem c2_hash_matches_content_witness :
    alookup "g" lfFS.files = some [97, 10, 98]
  ∧ utf8Encode (decodeText [97, 10, 98]) = [97, 10, 98]
  ∧ ∃ r : FileRecord,
      get_file_state ((get_files_with_mode emptySM lfFS ["g"] "smart" "repo").2) "g" none = some r
      ∧ r.content = decodeText [97, 10, 98]
      ∧ r.hash = sha256hex [97, 10, 98]
      ∧ r.hash = contentFingerprint r.content :=
  ⟨by decide, by decide,
   c2_hash_matches_content_for_roundtrip_bytes emptySM lfFS "g" [97, 10, 98] "smart" "repo"
     (by decide) (by decide) (by decide) (by decide)⟩

/-! ## Lemmas about the main-scope collection loop (for the idempotence claim) -/

theorem buildMain_state_frame (fs : FS) (q : String) :
    ∀ (paths : List String) (sm : SMState), q ∉ paths →
      get_file_state ((buildMain fs sm paths).2) q none = get_file_state sm q none := by
  intro paths
  induction paths with
  | nil => intro sm _; rfl
  | cons p rest ih =>
    intro sm hq
    have hqp : q ≠ p := fun h => hq (h ▸ List.mem_cons_self p rest)
    have hqrest : q ∉ rest := fun h => hq (List.mem_cons_of_mem _ h)
    unfold buildMain
    by_cases h1 : file_exists fs p
    · by_cases h2 : is_ignored fs p
      · simp [h1, h2]
        exact ih sm hqrest
      · cases hrcp : read_file_content fs p with
        | none =>
          simp [h1, h2, hrcp]
          exact ih sm hqrest
        | some content =>
          simp [h1, h2, hrcp]
          rw [ih _ hqrest, get_update_main_ne _ _ _ _ _ hqp]
    · simp [h1]
      exact ih sm hqrest

theorem buildMain_state_commits (fs : FS) (q : String) (hs : succeeds fs q) :
    ∀ (paths : List String) (sm : SMState), q ∈ paths →
      get_file_state ((buildMain fs sm paths).2) q none = some (recOf fs q) := by
  obtain ⟨hex, hig, hrf⟩ := hs
  obtain ⟨bytes, hbytes⟩ := Option.isSome_iff_exists.mp (by simpa [file_exists] using hex)
  have hrf2 : q ∉ fs.readFails := by simpa using hrf
  have hrc : read_file_content fs q = some (decodeText bytes) := by
    simp [read_file_content, hrf2, hbytes]
  have hch : calculate_file_hash fs q = some (sha256hex bytes) := by
    simp [calculate_file_hash, hrf2, hbytes]
  have hrec : recOf fs q = ⟨sha256hex bytes, decodeText bytes, (decodeText bytes).length⟩ := by
    simp [recOf, hbytes]
  intro paths
  induction paths with
  | nil => intro sm h; cases h
  | cons p rest ih =>
    intro sm hq
    by_cases hqr : q ∈ rest
    · unfold buildMain
      by_cases h1 : file_exists fs p
      · by_cases h2 : is_ignored fs p
        · simp [h1, h2]
          exact ih _ hqr
        · cases hrcp : read_file_content fs p with
          | none =>
            simp [h1, h2, hrcp]
            exact ih _ hqr
          | some content =>
            simp [h1, h2, hrcp]
            exact ih _ hqr
      · simp [h1]
        exact ih _ hqr
    · have hqp : q = p := by
        rcases List.mem_cons.mp hq with h | h
        · exact h
        · exact absurd h hqr
      subst hqp
      unfold buildMain
      simp [hex, hig, hrc, hch]
      rw [buildMain_state_frame fs q rest _ hqr, get_update_main_self, hrec]

theorem buildMain_entries_agree (fs : FS) :
    ∀ (paths : List String) (sm : SMState),
      (∀ p ∈ paths, succeeds fs p) →
      (∀ p ∈ paths, get_file_state sm p none = some (recOf fs p)) →
      ∀ fi ∈ (buildMain fs sm paths).1, ∃ p c oc fh, fi = mkEntry p c fh oc fh := by
  intro paths
  induction paths with
  | nil =>
    intro sm _ _ fi hfi
    simp [buildMain] at hfi
  | cons p rest ih =>
    intro sm hsucc hst fi hfi
    obtain ⟨hex, hig, hrf⟩ := hsucc p (List.mem_cons_self _ _)
    obtain ⟨bytes, hbytes⟩ := Option.isSome_iff_exists.mp (by simpa [file_exists] using hex)
    have hrf2 : p ∉ fs.readFails := by simpa using hrf
    have hrc : read_file_content fs p = some (decodeText bytes) := by
      simp [read_file_content, hrf2, hbytes]
    have hch : calculate_file_hash fs p = some (sha256hex bytes) := by
      simp [calculate_file_hash, hrf2, hbytes]
    have hrec : recOf fs p = ⟨sha256hex bytes, decodeText bytes, (decodeText bytes).length⟩ := by
      simp [recOf, hbytes]
    have hstp : get_file_state sm p none = some (recOf fs p) := hst p (List.mem_cons_self _ _)
    unfold buildMain at hfi
    simp [hex, hig, hrc, hch, hstp, hrec] at hfi
    rcases hfi with rfl | hfi2
    · exact ⟨p, decodeText bytes, decodeText bytes, sha256hex bytes, rfl⟩
    · refine ih _ (fun r hr => hsucc r (List.mem_cons_of_mem _ hr)) ?_ fi hfi2
      intro r hr
      by_cases hrp : r = p
      · subst hrp
        rw [get_update_main_self, hrec]
      · rw [get_update_main_ne _ _ _ _ _ hrp]
        exact hst r (List.mem_cons_of_mem _ hr)

/-- Processing a file whose old hash equals its current hash yields either no
entry or an entry flagged unchanged, in every mode. -/
theorem process_file_same_hash (p c oc fh : String) (mode : UpdateMode) :
    process_file_for_mode p c fh oc fh mode = none ∨
      ∃ r, process_file_for_mode p c fh oc fh mode = some r ∧ r.changed = false := by
  cases mode <;> simp [process_file_for_mode]

theorem batchLoop_agree (mode : UpdateMode) :
    ∀ (fd : List FileInfo),
      (∀ fi ∈ fd, ∃ p c oc fh, fi = mkEntry p c fh oc fh) →
      ∃ res : List FileResult × Nat, batchLoop mode fd = Except.ok res
        ∧ (∀ r ∈ res.1, r.changed = false) ∧ res.2 = 0 := by
  intro fd
  induction fd with
  | nil => exact fun _ => ⟨([], 0), rfl, by simp, rfl⟩
  | cons fi rest ih =>
    intro hall
    obtain ⟨p, c, oc, fh, rfl⟩ := hall _ (List.mem_cons_self _ _)
    obtain ⟨⟨l, n⟩, hres, hch, hz⟩ := ih (fun x hx => hall x (List.mem_cons_of_mem _ hx))
    have hstep : batchStep mode (mkEntry p c fh oc fh) =
        Except.ok (process_file_for_mode p c fh oc fh mode) := rfl
    rcases process_file_same_hash p c oc fh mode with hnone | ⟨r, hsome, hrch⟩
    · refine ⟨(l, n), ?_, hch, hz⟩
      unfold batchLoop
      rw [hstep, hnone]
      exact hres
    · refine ⟨(r :: l, n + if r.changed then 1 else 0), ?_, ?_, ?_⟩
      · unfold batchLoop
        rw [hstep, hsome, hres]
      · intro x hx
        rcases List.mem_cons.mp hx with rfl | hx2
        · exact hrch
        · exact hch x hx2
      · simp only [hrch, if_false]
        simpa using hz

theorem process_files_batch_agree (fd : List FileInfo) (mstr : String)
    (h : ∀ fi ∈ fd, ∃ p c oc fh, fi = mkEntry p c fh oc fh) :
    ∃ b : BatchResult, process_files_batch fd mstr = Except.ok b
      ∧ (∀ r ∈ b.files, r.changed = false) ∧ b.summary.changed_files = 0 := by
  obtain ⟨⟨l, n⟩, hres, hch, hz⟩ := batchLoop_agree (parseUpdateMode mstr) fd h
  refine ⟨{ files := l, update_mode := mstr,
            summary := { total_processed := l.length, changed_files := n,
                         mode_description := get_mode_description (parseUpdateMode mstr) } },
          ?_, hch, hz⟩
  simp only [process_files_batch, hres]

/-- C4 (counterexample): the claim quantifies over scopes, but the workspace
orchestrator never commits state, so calling it twice is NOT idempotent:
workspace "w" tracks "a" with a stale stored hash, the first load_workspace
flags it changed=true, returns the store unchanged, and the second call —
run on exactly the store the first call left behind — flags it changed=true
again instead of the claimed changed=false. -/
theorem c4_workspace_scope_not_idempotent_counterexample :
    (load_workspace wsDemoStore wsDemoFS "w" "smart").2 = wsDemoStore
  ∧ (filesOf (load_workspace wsDemoStore wsDemoFS "w" "smart").1).map
      (fun fi => (fi.file, fi.changed)) = [("a", true)]
  ∧ (filesOf (load_workspace ((load_workspace wsDemoStore wsDemoFS "w" "smart").2)
        wsDemoFS "w" "smart").1).map (fun fi => (fi.file, fi.changed)) = [("a", true)] := by
  refine ⟨?_, ?_, ?_⟩ <;> decide

/-- C4 (amended): idempotence holds for the main-scope orchestrator, the one
that commits state after each read: when every requested path passes the
existence/ignore/read checks, running get_files_with_mode twice with no file
modification in between yields a second result in which every per-file entry
has changed=false and the changed-files count is zero, in every update mode. -/
theorem c4_main_scope_idempotent (sm : SMState) (fs : FS) (paths : List String)
    (update_mode repo : String) (hall : ∀ p ∈ paths, succeeds fs p) :
    ∃ b2 : GfResult,
      (get_files_with_mode ((get_files_with_mode sm fs paths update_mode repo).2)
          fs paths update_mode repo).1 = Except.ok b2
      ∧ (∀ fi ∈ b2.batch.files, fi.changed = false)
      ∧ b2.batch.summary.changed_files = 0 := by
  have hsm1 : (get_files_with_mode sm fs paths update_mode repo).2 = (buildMain fs sm paths).2 := by
    unfold get_files_with_mode
    have hallx : ∀ (x : Except String BatchResult),
        (match x with
         | Except.error e => (Except.error e, (buildMain fs sm paths).2)
         | Except.ok b =>
           (Except.ok ({ batch := b, repository := repo } : GfResult),
             (buildMain fs sm paths).2)).2 =
        (buildMain fs sm paths).2 := by
      intro x
      cases x <;> rfl
    exact hallx _
  have hstate : ∀ p ∈ paths, get_file_state ((buildMain fs sm paths).2) p none =
      some (recOf fs p) :=
    fun p hp => buildMain_state_commits fs p (hall p hp) paths sm hp
  have hagree := buildMain_entries_agree fs paths ((buildMain fs sm paths).2) hall hstate
  obtain ⟨b, hb, hch, hz⟩ :=
    process_files_batch_agree ((buildMain fs ((buildMain fs sm paths).2) paths).1)
      update_mode hagree
  refine ⟨{ batch := b, repository := repo }, ?_, hch, hz⟩
  rw [hsm1]
  simp only [get_files_with_mode, hb]

/-- C4 witness: the amended idempotence theorem at a concrete one-file tree. -/
theorem c4_main_scope_idempotent_witness :
    (∀ p ∈ (["a"] : List String), succeeds idemFS p)
  ∧ ∃ b2 : GfResult,
      (get_files_with_mode ((get_files_with_mode emptySM idemFS ["a"] "smart" "repo").2)
          idemFS ["a"] "smart" "repo").1 = Except.ok b2
      ∧ (∀ fi ∈ b2.batch.files, fi.changed = false)
      ∧ b2.batch.summary.changed_files = 0 :=
  ⟨by decide, c4_main_scope_idempotent emptySM idemFS ["a"] "smart" "repo" (by decide)⟩

end GitServer
